import Mathlib

/-!
Shallow embedding of the voice-authentication core of the repository
(src/DL): audio preprocessing (silence removal, fixed-length padding),
cosine-similarity scoring, per-identity best-match verification, the
open-set login decision policies of the desktop/CLI and web front ends,
the login-attempt audit log, and the classifier training guard.

Floating-point amplitudes, feature values and similarity scores are
modelled as real numbers; numpy arrays as lists (2-D arrays as lists of
rows).
-/

namespace VoiceAuth

open Classical

/-- A feature encoding: a 2-D array, given as the list of its rows
(`preprocessing.py` produces `time_frames × frequency_bins` arrays). -/
abbrev Encoding := List (List ℝ)

/-- Model of `ndarray.flatten()` on a 2-D array: concatenate the rows. -/
def flattenEnc (e : Encoding) : List ℝ := e.flatten

/-- Model of `np.dot` on two 1-D arrays: sum of pointwise products. -/
def dotProduct (v w : List ℝ) : ℝ := (List.zipWith (fun a b => a * b) v w).sum

/-- Model of `np.linalg.norm` on a 1-D array: square root of the sum of squares. -/
noncomputable def l2norm (v : List ℝ) : ℝ := Real.sqrt (dotProduct v v)

/-- Model of `VoiceDatabase.calculate_cosine_similarity` (database.py, lines
209-253): flatten both embeddings, return 0.0 if the flattened shapes
differ or either norm is zero, otherwise the dot product divided by the
product of the norms. -/
noncomputable def calculate_cosine_similarity (e1 e2 : Encoding) : ℝ :=
  let v1 := flattenEnc e1
  let v2 := flattenEnc e2
  if v1.length ≠ v2.length then 0
  else if l2norm v1 = 0 ∨ l2norm v2 = 0 then 0
  else dotProduct v1 v2 / (l2norm v1 * l2norm v2)

/-- Model of Python's `max` on a list of floats (`max(similarities)`); the source
guards the call so the list is non-empty, the `[]` case is arbitrary. -/
def maxOfList : List ℝ → ℝ
  | [] => 0
  | x :: xs => xs.foldl max x

/-- Model of `VoiceDatabase.verify_student_voice` (database.py, lines 169-207),
with the stored embeddings of the claimed identity passed in place of the
database lookup: returns `(False, 0.0)` when no embeddings are stored,
otherwise `(max_similarity ≥ threshold, max_similarity)` where
`max_similarity` is the maximum cosine similarity between the test
embedding and each stored embedding. The default threshold is 0.8. -/
noncomputable def verify_student_voice (stored : List Encoding) (test : Encoding)
    (threshold : ℝ) : Bool × ℝ :=
  if stored.isEmpty then (false, 0)
  else
    let sims := stored.map (fun e => calculate_cosine_similarity test e)
    let maxSim := maxOfList sims
    (decide (threshold ≤ maxSim), maxSim)

/-- A row of the `students` table, as used by the login loops. -/
structure StudentRec where
  student_id : String
  is_active : Bool

/-- A registered student together with their stored voice embeddings. -/
structure EnrolledStudent where
  info : StudentRec
  embeddings : List Encoding

/-- One iteration of the comparison loop shared by
`app.identify_and_login`, `cli_app._voice_only_login` and
`web_app.api_voice_login`: skip inactive students, otherwise call
`verify_student_voice` (default threshold) and keep the student when the
similarity strictly exceeds the best so far. -/
noncomputable def scanStudent (features : Encoding) (acc : Option StudentRec × ℝ)
    (s : EnrolledStudent) : Option StudentRec × ℝ :=
  if s.info.is_active = false then acc
  else if acc.2 < (verify_student_voice s.embeddings features 0.8).2 then
    (some s.info, (verify_student_voice s.embeddings features 0.8).2)
  else acc

/-- The full comparison loop: fold `scanStudent` over the student list
starting from `best_student = None, best_similarity = 0.0`. -/
noncomputable def bestMatchFold (students : List EnrolledStudent) (features : Encoding) :
    Option StudentRec × ℝ :=
  students.foldl (scanStudent features) (none, 0)

/-- The three outcomes of the open-set decision in `identify_and_login`
and `_voice_only_login`. -/
inductive Decision
  | Accept
  | PossibleMatch
  | Reject
deriving DecidableEq

/-- A row of the `login_attempts` table as written by
`VoiceDatabase.log_login_attempt` (database.py, lines 255-266). -/
structure LogEvent where
  student_id : String
  success : Bool
  confidence_score : ℝ

/-- The comparison-and-logging part of `app.identify_and_login` (app.py,
lines 301-386) and `cli_app._voice_only_login` (cli_app.py, lines
176-218). When the student table is empty the code returns early with a
"No registered students found" failure (app.py, lines 318-321; cli_app.py,
lines 167-169) and writes NO login-attempt record: the early return is
modelled as a Reject with score 0.0 (matching the failure message's 0.0
confidence and the spec's classification of an empty enrollment set) and
an empty log list. Otherwise, with `best = (best_student, best_similarity)`
from the loop: accept and log success when a best student exists and the
similarity is ≥ 0.75; report a possible match and log failure when it is
≥ 0.5; otherwise reject and log failure under `"UNKNOWN"`. -/
noncomputable def identify_and_login (students : List EnrolledStudent)
    (features : Encoding) : Decision × ℝ × List LogEvent :=
  if students.isEmpty then (Decision.Reject, 0, [])
  else
    let best := bestMatchFold students features
    match best.1 with
    | some st =>
        if 0.75 ≤ best.2 then
          (Decision.Accept, best.2, [⟨st.student_id, true, best.2⟩])
        else if 0.5 ≤ best.2 then
          (Decision.PossibleMatch, best.2, [⟨st.student_id, false, best.2⟩])
        else
          (Decision.Reject, best.2, [⟨"UNKNOWN", false, best.2⟩])
    | none => (Decision.Reject, best.2, [⟨"UNKNOWN", false, best.2⟩])

/-- The comparison-and-logging part of `web_app.api_voice_login`
(web_app.py, lines 358-399): same comparison loop, but a single 0.65
acceptance threshold and only two outcomes (success true/false). An empty
student table is likewise an unlogged early return ("No registered
students", web_app.py, lines 359-363). -/
noncomputable def api_voice_login (students : List EnrolledStudent)
    (features : Encoding) : Bool × ℝ × List LogEvent :=
  if students.isEmpty then (false, 0, [])
  else
    let best := bestMatchFold students features
    match best.1 with
    | some st =>
        if 0.65 ≤ best.2 then
          (true, best.2, [⟨st.student_id, true, best.2⟩])
        else
          (false, best.2, [⟨"UNKNOWN", false, best.2⟩])
    | none => (false, best.2, [⟨"UNKNOWN", false, best.2⟩])

/-- Model of `AudioPreprocessor.pad_sequence` (preprocessing.py, lines 93-99):
truncate to the first `max_length` rows when longer, otherwise append
zero rows (`np.pad` with constant mode keeps the column count of the
input). The preprocessor's default `max_length` is 100. -/
def pad_sequence (max_length : Nat) (features : List (List ℝ)) : List (List ℝ) :=
  if max_length < features.length then features.take max_length
  else features ++ List.replicate (max_length - features.length)
    (List.replicate (features.headD []).length 0)

/-- The boolean mask selection `audio[np.abs(audio) > threshold]` of
`remove_silence`: keep exactly the samples whose absolute amplitude
strictly exceeds the threshold, in order. -/
noncomputable def silenceFilter (threshold : ℝ) (audio : List ℝ) : List ℝ :=
  audio.filter (fun x => decide (threshold < |x|))

/-- Model of `AudioPreprocessor.remove_silence` (preprocessing.py, lines 162-185):
apply the amplitude mask; if no sample passes (`np.any(mask)` is false)
return the original audio unchanged. Default threshold 0.01. -/
noncomputable def remove_silence (audio : List ℝ) (threshold : ℝ) : List ℝ :=
  if (silenceFilter threshold audio).isEmpty then audio
  else silenceFilter threshold audio

/-- Result of one training run. -/
inductive TrainOutcome
  | insufficientData
  | trained (numClasses : Nat) (numSamples : Nat)
deriving DecidableEq

/-- The training entry points `cli_app.train_model` (cli_app.py, lines
230-239) and `app.train_model` (app.py, lines 451-507): given the
per-identity embedding lists from `get_all_student_embeddings` (one entry
per identity having at least one stored embedding), abort with an
insufficient-data failure when fewer than two identities are present —
before any model is built — and otherwise build and train a model with
one class per identity over all their samples. -/
def train_model (studentData : List (String × List Encoding)) : TrainOutcome :=
  if studentData.length < 2 then TrainOutcome.insufficientData
  else TrainOutcome.trained studentData.length
    ((studentData.map (fun p => p.2.length)).sum)

/-! ## Helper lemmas -/

lemma dotProduct_comm (v w : List ℝ) : dotProduct v w = dotProduct w v := by
  unfold dotProduct
  rw [List.zipWith_comm_of_comm]
  exact mul_comm

lemma dotProduct_self_nonneg (v : List ℝ) : 0 ≤ dotProduct v v := by
  induction v with
  | nil => simp [dotProduct]
  | cons x xs ih =>
    have hx : 0 ≤ x * x := mul_self_nonneg x
    simp only [dotProduct, List.zipWith_cons_cons, List.sum_cons] at *
    linarith

lemma l2norm_nonneg (v : List ℝ) : 0 ≤ l2norm v := Real.sqrt_nonneg _

lemma sq_l2norm (v : List ℝ) : l2norm v * l2norm v = dotProduct v v := by
  unfold l2norm
  exact Real.mul_self_sqrt (dotProduct_self_nonneg v)

lemma foldl_max_init_le (xs : List ℝ) : ∀ x : ℝ, x ≤ xs.foldl max x := by
  induction xs with
  | nil => intro x; simp
  | cons y ys ih =>
    intro x
    calc x ≤ max x y := le_max_left x y
    _ ≤ ys.foldl max (max x y) := ih (max x y)

lemma le_foldl_max (xs : List ℝ) : ∀ (x a : ℝ), a ∈ xs → a ≤ xs.foldl max x := by
  induction xs with
  | nil => intro x a ha; simp at ha
  | cons y ys ih =>
    intro x a ha
    rcases List.mem_cons.mp ha with h | h
    · subst h
      calc a ≤ max x a := le_max_right x a
      _ ≤ ys.foldl max (max x a) := foldl_max_init_le ys (max x a)
    · exact ih (max x y) a h

lemma foldl_max_mem (xs : List ℝ) : ∀ x : ℝ, xs.foldl max x ∈ x :: xs := by
  induction xs with
  | nil => intro x; simp
  | cons y ys ih =>
    intro x
    have h := ih (max x y)
    rcases List.mem_cons.mp h with h | h
    · rcases max_choice x y with hm | hm <;> rw [List.foldl_cons, h, hm] <;> simp
    · simp [List.foldl_cons, List.mem_cons.mpr (Or.inr (List.mem_cons.mpr (Or.inr h)))]

lemma maxOfList_mem {x : ℝ} {xs : List ℝ} : maxOfList (x :: xs) ∈ x :: xs := by
  simpa [maxOfList] using foldl_max_mem xs x

lemma le_maxOfList {x a : ℝ} {xs : List ℝ} (h : a ∈ x :: xs) :
    a ≤ maxOfList (x :: xs) := by
  rcases List.mem_cons.mp h with h | h
  · subst h; simpa [maxOfList] using foldl_max_init_le xs a
  · simpa [maxOfList] using le_foldl_max xs x a h

/-- Cauchy-Schwarz for list dot products, squared form. -/
lemma dotProduct_sq_le (v w : List ℝ) :
    dotProduct v w ^ 2 ≤ dotProduct v v * dotProduct w w := by
  induction v generalizing w with
  | nil => simp [dotProduct]
  | cons x xs ih =>
    cases w with
    | nil => simp [dotProduct]
    | cons y ys =>
      have h := ih ys
      have h1 := dotProduct_self_nonneg xs
      have h2 := dotProduct_self_nonneg ys
      simp only [dotProduct, List.zipWith_cons_cons, List.sum_cons] at *
      set S := (List.zipWith (fun a b => a * b) xs ys).sum with hS
      set Sxx := (List.zipWith (fun a b => a * b) xs xs).sum with hSxx
      set Syy := (List.zipWith (fun a b => a * b) ys ys).sum with hSyy
      have key : 2 * (x * y) * S ≤ x * x * Syy + y * y * Sxx := by
        have hsq : (2 * (x * y) * S) ^ 2 ≤ (x * x * Syy + y * y * Sxx) ^ 2 := by
          nlinarith [sq_nonneg (x * x * Syy - y * y * Sxx),
            mul_nonneg (mul_nonneg (mul_self_nonneg x) (mul_self_nonneg y))
              (sub_nonneg.mpr h)]
        have hU : 0 ≤ x * x * Syy + y * y * Sxx :=
          add_nonneg (mul_nonneg (mul_self_nonneg x) h2)
            (mul_nonneg (mul_self_nonneg y) h1)
        calc 2 * (x * y) * S ≤ |2 * (x * y) * S| := le_abs_self _
        _ ≤ |x * x * Syy + y * y * Sxx| := by
          rw [← Real.sqrt_sq_eq_abs, ← Real.sqrt_sq_eq_abs]
          exact Real.sqrt_le_sqrt hsq
        _ = x * x * Syy + y * y * Sxx := abs_of_nonneg hU
      nlinarith [key, h]

/-- The absolute dot product is bounded by the product of the norms. -/
lemma abs_dotProduct_le (v w : List ℝ) :
    |dotProduct v w| ≤ l2norm v * l2norm w := by
  have h' : dotProduct v w ^ 2 ≤ (l2norm v * l2norm w) ^ 2 := by
    have e : (l2norm v * l2norm w) ^ 2 =
        (l2norm v * l2norm v) * (l2norm w * l2norm w) := by ring
    rw [e, sq_l2norm, sq_l2norm]
    exact dotProduct_sq_le v w
  calc |dotProduct v w| = Real.sqrt (dotProduct v w ^ 2) :=
    (Real.sqrt_sq_eq_abs _).symm
  _ ≤ Real.sqrt ((l2norm v * l2norm w) ^ 2) := Real.sqrt_le_sqrt h'
  _ = |l2norm v * l2norm w| := Real.sqrt_sq_eq_abs _
  _ = l2norm v * l2norm w :=
    abs_of_nonneg (mul_nonneg (l2norm_nonneg v) (l2norm_nonneg w))

/-! ## Claims C4, C5, C10 — preprocessing -/

/-- C4. `pad_sequence` with the canonical length 100 always returns a
matrix of exactly 100 rows: the first 100 rows of the input when the
input is longer (truncation), and the input followed by all-zero rows
when it is not; the fixed column count of the input is preserved. -/
theorem C4_pad_sequence_canonical (features : List (List ℝ)) :
    (pad_sequence 100 features).length = 100 ∧
    (100 < features.length → pad_sequence 100 features = features.take 100) ∧
    (features.length ≤ 100 →
      pad_sequence 100 features =
        features ++ List.replicate (100 - features.length)
          (List.replicate (features.headD []).length 0)) ∧
    (∀ c, (∀ row ∈ features, row.length = c) → features ≠ [] →
      ∀ row ∈ pad_sequence 100 features, row.length = c) := by
  refine ⟨?_, ?_, ?_, ?_⟩
  · unfold pad_sequence
    split_ifs with h
    · rw [List.length_take]; omega
    · rw [List.length_append, List.length_replicate]; omega
  · intro h
    unfold pad_sequence
    rw [if_pos h]
  · intro h
    unfold pad_sequence
    rw [if_neg (by omega)]
  · intro c hc hne row hrow
    unfold pad_sequence at hrow
    split_ifs at hrow with h
    · exact hc row (List.mem_of_mem_take hrow)
    · rcases List.mem_append.mp hrow with h1 | h2
      · exact hc row h1
      · rw [List.eq_of_mem_replicate h2, List.length_replicate]
        cases features with
        | nil => exact absurd rfl hne
        | cons f fs => simpa using hc f (by simp)

/-- Witness for C4 at a concrete one-row input. -/
theorem C4_pad_sequence_canonical_witness :
    (pad_sequence 100 [[(1:ℝ), 2]]).length = 100 :=
  (C4_pad_sequence_canonical [[(1:ℝ), 2]]).1

/-- C5. `remove_silence` with the default threshold 0.01 returns exactly
the in-order subsequence of samples whose absolute amplitude strictly
exceeds 0.01 whenever some sample does, and the original input unchanged
when none does. -/
theorem C5_remove_silence_filter (audio : List ℝ) :
    ((∃ x ∈ audio, (0.01:ℝ) < |x|) →
      remove_silence audio 0.01 = audio.filter (fun x => decide ((0.01:ℝ) < |x|))) ∧
    ((∀ x ∈ audio, |x| ≤ (0.01:ℝ)) → remove_silence audio 0.01 = audio) := by
  constructor
  · rintro ⟨x, hx, hgt⟩
    unfold remove_silence
    rw [if_neg]
    · rfl
    · intro hemp
      have hmem : x ∈ silenceFilter 0.01 audio := by
        unfold silenceFilter
        exact List.mem_filter.mpr ⟨hx, by simpa using hgt⟩
      rw [List.isEmpty_iff.mp hemp] at hmem
      simp at hmem
  · intro h
    unfold remove_silence
    rw [if_pos]
    rw [List.isEmpty_iff]
    unfold silenceFilter
    rw [List.filter_eq_nil_iff]
    intro a ha
    simpa using h a ha

/-- Witness for C5: on `[1, 0]` some sample exceeds the threshold and the
result is the filtered list. -/
theorem C5_remove_silence_filter_witness :
    (∃ x ∈ [(1:ℝ), 0], (0.01:ℝ) < |x|) ∧
      remove_silence [(1:ℝ), 0] 0.01 =
        [(1:ℝ), 0].filter (fun x => decide ((0.01:ℝ) < |x|)) :=
  ⟨⟨1, by norm_num⟩, (C5_remove_silence_filter [(1:ℝ), 0]).1 ⟨1, by norm_num⟩⟩

/-- C10. On a non-empty sample list, `remove_silence` never returns an
empty list (for any threshold): if filtering would drop every sample the
original input is returned, so the pipeline's "no audio left after
silence removal" branch is unreachable for non-empty loaded audio. -/
theorem C10_remove_silence_nonempty (audio : List ℝ) (threshold : ℝ)
    (h : audio ≠ []) : remove_silence audio threshold ≠ [] := by
  unfold remove_silence
  split_ifs with hemp
  · exact h
  · intro hc
    rw [hc] at hemp
    simp at hemp

/-- Witness for C10 on the all-silent input `[0]`. -/
theorem C10_remove_silence_nonempty_witness :
    ([(0:ℝ)] ≠ ([] : List ℝ)) ∧ remove_silence [(0:ℝ)] 0.01 ≠ [] :=
  ⟨by simp, C10_remove_silence_nonempty [(0:ℝ)] 0.01 (by simp)⟩

/-! ## Claims C6, C7 — similarity degeneracy and symmetry -/

/-- C6. `calculate_cosine_similarity` returns exactly 0 whenever the
flattened lengths differ or either flattened embedding has zero L2 norm
(in particular on an all-zero embedding); being a total real-valued
function, it never yields NaN or raises. -/
theorem C6_compare_degenerate_zero (e1 e2 : Encoding)
    (h : (flattenEnc e1).length ≠ (flattenEnc e2).length ∨
      l2norm (flattenEnc e1) = 0 ∨ l2norm (flattenEnc e2) = 0) :
    calculate_cosine_similarity e1 e2 = 0 := by
  simp only [calculate_cosine_similarity]
  by_cases hl : (flattenEnc e1).length ≠ (flattenEnc e2).length
  · rw [if_pos hl]
  · rw [if_neg hl, if_pos]
    rcases h with h | h
    · exact absurd h hl
    · exact h

/-- Witness for C6: the all-zero encoding `[[0]]` has zero norm and
compares to 0 against `[[1]]`. -/
theorem C6_compare_degenerate_zero_witness :
    l2norm (flattenEnc [[(0:ℝ)]]) = 0 ∧
      calculate_cosine_similarity [[(0:ℝ)]] [[(1:ℝ)]] = 0 := by
  have hz : l2norm (flattenEnc [[(0:ℝ)]]) = 0 := by
    simp [l2norm, flattenEnc, dotProduct]
  exact ⟨hz, C6_compare_degenerate_zero [[(0:ℝ)]] [[(1:ℝ)]] (Or.inr (Or.inl hz))⟩

/-- C7. Cosine similarity is symmetric: `compare(a, b) = compare(b, a)`
for all encodings `a`, `b`. -/
theorem C7_compare_symm (e1 e2 : Encoding) :
    calculate_cosine_similarity e1 e2 = calculate_cosine_similarity e2 e1 := by
  simp only [calculate_cosine_similarity]
  by_cases hl : (flattenEnc e1).length = (flattenEnc e2).length
  · rw [if_neg (not_not_intro hl), if_neg (not_not_intro hl.symm)]
    by_cases h1 : l2norm (flattenEnc e1) = 0
    · rw [if_pos
        (Or.inl h1 : l2norm (flattenEnc e1) = 0 ∨ l2norm (flattenEnc e2) = 0),
        if_pos
        (Or.inr h1 : l2norm (flattenEnc e2) = 0 ∨ l2norm (flattenEnc e1) = 0)]
    · by_cases h2 : l2norm (flattenEnc e2) = 0
      · rw [if_pos
          (Or.inr h2 : l2norm (flattenEnc e1) = 0 ∨ l2norm (flattenEnc e2) = 0),
          if_pos
          (Or.inl h2 : l2norm (flattenEnc e2) = 0 ∨ l2norm (flattenEnc e1) = 0)]
      · have hA : ¬(l2norm (flattenEnc e1) = 0 ∨ l2norm (flattenEnc e2) = 0) := by
          tauto
        have hB : ¬(l2norm (flattenEnc e2) = 0 ∨ l2norm (flattenEnc e1) = 0) := by
          tauto
        rw [if_neg hA, if_neg hB,
          dotProduct_comm (flattenEnc e1) (flattenEnc e2),
          mul_comm (l2norm (flattenEnc e1)) (l2norm (flattenEnc e2))]
  · rw [if_pos hl, if_pos (fun hc => hl hc.symm)]

/-! ## Claim C8 — training guard -/

/-- C8. With the per-identity training data (each listed identity having
at least one sample), training fails with the insufficient-data outcome —
and no model is built — exactly when fewer than two identities are
present; with two or more it proceeds to train a model with one class per
identity. -/
theorem C8_train_guard (studentData : List (String × List Encoding))
    (h : ∀ p ∈ studentData, p.2 ≠ []) :
    (train_model studentData = TrainOutcome.insufficientData ↔
      studentData.length < 2) ∧
    (2 ≤ studentData.length →
      train_model studentData =
        TrainOutcome.trained studentData.length
          ((studentData.map (fun p => p.2.length)).sum)) := by
  constructor
  · constructor
    · intro he
      by_contra hge
      unfold train_model at he
      rw [if_neg hge] at he
      exact absurd he (by simp)
    · intro hlt
      unfold train_model
      rw [if_pos hlt]
  · intro h2
    unfold train_model
    rw [if_neg (by omega)]

/-- Witness for C8: a single enrolled identity with one sample is
rejected as insufficient. -/
theorem C8_train_guard_witness :
    train_model [("A", [[[(1:ℝ)]]])] = TrainOutcome.insufficientData :=
  (C8_train_guard [("A", [[[(1:ℝ)]]])] (by simp)).1.mpr (by simp)

/-! ## Claim C1 — range of the similarity score -/

/-- C1 (amended). The similarity returned by
`calculate_cosine_similarity` always lies in `[-1, 1]`: it is the
degenerate 0.0 on malformed input and the raw, unclamped cosine
similarity of the two flattened encodings otherwise. -/
theorem C1_compare_bounded (e1 e2 : Encoding) :
    -1 ≤ calculate_cosine_similarity e1 e2 ∧
      calculate_cosine_similarity e1 e2 ≤ 1 := by
  have hmain : |calculate_cosine_similarity e1 e2| ≤ 1 := by
    simp only [calculate_cosine_similarity]
    split_ifs with hl hz
    · simp
    · simp
    · push_neg at hz
      obtain ⟨hn1, hn2⟩ := hz
      have hp1 : 0 < l2norm (flattenEnc e1) :=
        lt_of_le_of_ne (l2norm_nonneg _) (Ne.symm hn1)
      have hp2 : 0 < l2norm (flattenEnc e2) :=
        lt_of_le_of_ne (l2norm_nonneg _) (Ne.symm hn2)
      rw [abs_div, abs_of_pos (mul_pos hp1 hp2), div_le_one (mul_pos hp1 hp2)]
      exact abs_dotProduct_le (flattenEnc e1) (flattenEnc e2)
  exact abs_le.mp hmain

/-- Counterexample to C1 as stated: on the well-formed pair `[[1]]`,
`[[-1]]` the similarity is exactly `-1`, which is negative, so the score
is not clamped to `[0, 1]`. -/
theorem C1_counterexample :
    calculate_cosine_similarity [[(1:ℝ)]] [[(-1:ℝ)]] = -1 ∧
      calculate_cosine_similarity [[(1:ℝ)]] [[(-1:ℝ)]] < 0 := by
  have hf1 : flattenEnc [[(1:ℝ)]] = [(1:ℝ)] := by simp [flattenEnc]
  have hf2 : flattenEnc [[(-1:ℝ)]] = [(-1:ℝ)] := by simp [flattenEnc]
  have hn1 : l2norm [(1:ℝ)] = 1 := by
    norm_num [l2norm, dotProduct]
  have hn2 : l2norm [(-1:ℝ)] = 1 := by
    norm_num [l2norm, dotProduct]
  have hval : calculate_cosine_similarity [[(1:ℝ)]] [[(-1:ℝ)]] = -1 := by
    simp only [calculate_cosine_similarity, hf1, hf2, hn1, hn2]
    rw [if_neg (by simp), if_neg (by norm_num)]
    norm_num [dotProduct]
  exact ⟨hval, by rw [hval]; norm_num⟩

/-! ## Claim C2 — closed-set verification takes the maximum -/

/-- C2. For an identity with at least one stored encoding,
`verify_student_voice` at the default threshold 0.8 returns a score that
is the maximum (an attained upper bound, never an average) of the cosine
similarities between the probe and each stored encoding, and a match flag
that is true exactly when that maximum reaches 0.8. -/
theorem C2_verify_best_match (stored : List Encoding) (test : Encoding)
    (h : stored ≠ []) :
    (verify_student_voice stored test 0.8).2 ∈
        stored.map (fun e => calculate_cosine_similarity test e) ∧
    (∀ s ∈ stored.map (fun e => calculate_cosine_similarity test e),
        s ≤ (verify_student_voice stored test 0.8).2) ∧
    ((verify_student_voice stored test 0.8).1 = true ↔
        (0.8:ℝ) ≤ (verify_student_voice stored test 0.8).2) := by
  obtain ⟨e0, rest, rfl⟩ := List.exists_cons_of_ne_nil h
  simp only [verify_student_voice, List.isEmpty_cons, List.map_cons,
    Bool.false_eq_true, if_false]
  refine ⟨maxOfList_mem, fun s hs => le_maxOfList hs, ?_⟩
  simp [decide_eq_true_eq]

/-- Witness for C2 at one stored encoding `[[1]]` and the identical
probe. -/
theorem C2_verify_best_match_witness :
    (verify_student_voice [[[(1:ℝ)]]] [[(1:ℝ)]] 0.8).1 = true ↔
      (0.8:ℝ) ≤ (verify_student_voice [[[(1:ℝ)]]] [[(1:ℝ)]] 0.8).2 :=
  (C2_verify_best_match [[[(1:ℝ)]]] [[(1:ℝ)]] (by simp)).2.2

/-! ## Claims C3, C9 — open-set decision tiers and audit logging -/

/-- When the comparison loop selects no student, the best similarity is
still the initial 0.0. -/
lemma bestMatchFold_none_eq_zero (students : List EnrolledStudent)
    (features : Encoding) (hb : (bestMatchFold students features).1 = none) :
    (bestMatchFold students features).2 = 0 := by
  unfold bestMatchFold at *
  revert hb
  suffices H : ∀ (l : List EnrolledStudent) (acc : Option StudentRec × ℝ),
      (acc.1 = none → acc.2 = 0) →
      ((l.foldl (scanStudent features) acc).1 = none →
        (l.foldl (scanStudent features) acc).2 = 0) by
    exact H students (none, 0) (fun _ => rfl)
  intro l
  induction l with
  | nil => intro acc hacc; simpa using hacc
  | cons s ss ih =>
    intro acc hacc
    rw [List.foldl_cons]
    apply ih
    unfold scanStudent
    split_ifs with h1 h2
    · exact hacc
    · intro hc; simp at hc
    · exact hacc

/-- C3 (amended). In the desktop/CLI open-set login path, with `s` the
best similarity reached by the comparison loop: the decision is Accept
iff `s ≥ 0.75`, PossibleMatch iff `0.5 ≤ s < 0.75`, and Reject iff
`s < 0.5` (in particular when no identities are enrolled, where `s = 0`).
The web path is governed by a different, single 0.65 threshold — see the
counterexample. -/
theorem C3_open_set_tiers (students : List EnrolledStudent) (features : Encoding) :
    ((identify_and_login students features).1 = Decision.Accept ↔
      (0.75:ℝ) ≤ (bestMatchFold students features).2) ∧
    ((identify_and_login students features).1 = Decision.PossibleMatch ↔
      ((0.5:ℝ) ≤ (bestMatchFold students features).2 ∧
        (bestMatchFold students features).2 < 0.75)) ∧
    ((identify_and_login students features).1 = Decision.Reject ↔
      (bestMatchFold students features).2 < 0.5) := by
  cases students with
  | nil =>
    have hI : identify_and_login [] features = (Decision.Reject, 0, []) := rfl
    have hB : (bestMatchFold ([] : List EnrolledStudent) features).2 = 0 := rfl
    rw [hI, hB]
    exact ⟨⟨fun hc => Decision.noConfusion hc, fun hle => absurd hle (by norm_num)⟩,
      ⟨fun hc => Decision.noConfusion hc, fun hc => absurd hc.1 (by norm_num)⟩,
      ⟨fun _ => by norm_num, fun _ => rfl⟩⟩
  | cons s0 rest =>
    cases hb : (bestMatchFold (s0 :: rest) features).1 with
    | none =>
      have h0 := bestMatchFold_none_eq_zero (s0 :: rest) features hb
      have hI : identify_and_login (s0 :: rest) features =
          (Decision.Reject, (bestMatchFold (s0 :: rest) features).2,
            [⟨"UNKNOWN", false, (bestMatchFold (s0 :: rest) features).2⟩]) := by
        simp only [identify_and_login, List.isEmpty_cons, Bool.false_eq_true,
          if_false, hb]
      rw [hI, h0]
      exact ⟨⟨fun hc => Decision.noConfusion hc,
          fun hle => absurd hle (by norm_num)⟩,
        ⟨fun hc => Decision.noConfusion hc, fun hc => absurd hc.1 (by norm_num)⟩,
        ⟨fun _ => by norm_num, fun _ => rfl⟩⟩
    | some st =>
      simp only [identify_and_login, List.isEmpty_cons, Bool.false_eq_true,
        if_false, hb]
      split_ifs with h75 h5
      · have hlt : ¬((bestMatchFold (s0 :: rest) features).2 < 0.5) :=
          not_lt.mpr (le_trans (by norm_num : (0.5:ℝ) ≤ 0.75) h75)
        exact ⟨by simp [h75], by simp [not_lt.mpr h75], by simp [hlt]⟩
      · exact ⟨by simp [h75], by simp [h5, not_le.mp h75],
          by simp [not_lt.mpr h5]⟩
      · exact ⟨by simp [h75], by simp [h5], by simp [not_le.mp h5]⟩

/-- Counterexample to C3 as stated: the web open-set path
(`api_voice_login`) grants access at a top similarity of 120/169 ≈ 0.71,
inside the band `[0.5, 0.75)` in which the claim requires a
PossibleMatch with access denied. -/
theorem C3_counterexample :
    (api_voice_login [⟨⟨"S1", true⟩, [[[(5:ℝ), 12]]]⟩] [[(12:ℝ), 5]]).1 = true ∧
    (0.5:ℝ) ≤ (bestMatchFold [⟨⟨"S1", true⟩, [[[(5:ℝ), 12]]]⟩] [[(12:ℝ), 5]]).2 ∧
    (bestMatchFold [⟨⟨"S1", true⟩, [[[(5:ℝ), 12]]]⟩] [[(12:ℝ), 5]]).2 < 0.75 := by
  have hsqrt : Real.sqrt 169 = 13 := by
    rw [show (169:ℝ) = 13 ^ 2 by norm_num]
    exact Real.sqrt_sq (by norm_num)
  have hn1 : l2norm [(12:ℝ), 5] = 13 := by
    have hd : dotProduct [(12:ℝ), 5] [(12:ℝ), 5] = 169 := by
      norm_num [dotProduct]
    simp only [l2norm, hd, hsqrt]
  have hn2 : l2norm [(5:ℝ), 12] = 13 := by
    have hd : dotProduct [(5:ℝ), 12] [(5:ℝ), 12] = 169 := by
      norm_num [dotProduct]
    simp only [l2norm, hd, hsqrt]
  have hsim : calculate_cosine_similarity [[(12:ℝ), 5]] [[(5:ℝ), 12]] = 120 / 169 := by
    have hf1 : flattenEnc [[(12:ℝ), 5]] = [(12:ℝ), 5] := by simp [flattenEnc]
    have hf2 : flattenEnc [[(5:ℝ), 12]] = [(5:ℝ), 12] := by simp [flattenEnc]
    have hd : dotProduct [(12:ℝ), 5] [(5:ℝ), 12] = 120 := by
      norm_num [dotProduct]
    simp only [calculate_cosine_similarity, hf1, hf2, hn1, hn2, hd]
    rw [if_neg (by simp), if_neg (by norm_num)]
    norm_num
  have hv : (verify_student_voice [[[(5:ℝ), 12]]] [[(12:ℝ), 5]] 0.8).2 = 120 / 169 := by
    simp only [verify_student_voice, List.isEmpty_cons, Bool.false_eq_true,
      if_false, List.map_cons, List.map_nil, maxOfList, List.foldl_nil, hsim]
  have hfold : bestMatchFold [⟨⟨"S1", true⟩, [[[(5:ℝ), 12]]]⟩] [[(12:ℝ), 5]] =
      (some ⟨"S1", true⟩, 120 / 169) := by
    simp only [bestMatchFold, List.foldl_cons, List.foldl_nil, scanStudent]
    rw [if_neg (by simp), hv, if_pos (by norm_num)]
  refine ⟨?_, ?_, ?_⟩
  · simp only [api_voice_login, List.isEmpty_cons, Bool.false_eq_true,
      if_false, hfold]
    rw [if_pos (by norm_num : (0.65:ℝ) ≤ 120 / 169)]
  · rw [hfold]; norm_num
  · rw [hfold]; norm_num

/-- C9 (amended). Every open-set verification attempt against a
non-empty student table logs exactly one login-attempt event: its score
is the attempt's best similarity, its success flag is set exactly on
Accept, its identity is the matched student on Accept/PossibleMatch and
the sentinel "UNKNOWN" on Reject. (The empty-table early return writes
no event — see the counterexample.) -/
theorem C9_login_attempt_logged (students : List EnrolledStudent)
    (features : Encoding) (hne : students ≠ []) :
    ∃ ev : LogEvent,
      (identify_and_login students features).2.2 = [ev] ∧
      ev.confidence_score = (bestMatchFold students features).2 ∧
      (ev.success = true ↔
        (identify_and_login students features).1 = Decision.Accept) ∧
      ((identify_and_login students features).1 = Decision.Reject →
        ev.student_id = "UNKNOWN") ∧
      ((identify_and_login students features).1 ≠ Decision.Reject →
        ∃ st, (bestMatchFold students features).1 = some st ∧
          ev.student_id = st.student_id) := by
  obtain ⟨s0, rest, rfl⟩ := List.exists_cons_of_ne_nil hne
  cases hb : (bestMatchFold (s0 :: rest) features).1 with
  | none =>
    refine ⟨⟨"UNKNOWN", false, (bestMatchFold (s0 :: rest) features).2⟩,
      ?_, rfl, ?_, fun _ => rfl, ?_⟩
    · simp only [identify_and_login, List.isEmpty_cons, Bool.false_eq_true,
        if_false, hb]
    · simp only [identify_and_login, List.isEmpty_cons, Bool.false_eq_true,
        if_false, hb]
      simp
    · intro hne'
      refine absurd ?_ hne'
      simp only [identify_and_login, List.isEmpty_cons, Bool.false_eq_true,
        if_false, hb]
  | some st =>
    simp only [identify_and_login, List.isEmpty_cons, Bool.false_eq_true,
      if_false, hb]
    split_ifs with h75 h5
    · exact ⟨⟨st.student_id, true, (bestMatchFold (s0 :: rest) features).2⟩,
        rfl, rfl, by simp, by simp, fun _ => ⟨st, rfl, rfl⟩⟩
    · exact ⟨⟨st.student_id, false, (bestMatchFold (s0 :: rest) features).2⟩,
        rfl, rfl, by simp, by simp, fun _ => ⟨st, rfl, rfl⟩⟩
    · exact ⟨⟨"UNKNOWN", false, (bestMatchFold (s0 :: rest) features).2⟩,
        rfl, rfl, by simp, fun _ => rfl, fun hne' => absurd rfl hne'⟩

/-- Counterexample to C9 as stated: with an empty student table the
attempt ends as a rejection ("No registered students found") through the
early return of app.py, lines 318-321, which writes no login-attempt
record at all — the attempt is silently dropped, contradicting the
claim's "exactly one logged event" for attempts ending in Reject. -/
theorem C9_counterexample :
    (identify_and_login [] [[(1:ℝ)]]).1 = Decision.Reject ∧
    (identify_and_login [] [[(1:ℝ)]]).2.2 = ([] : List LogEvent) :=
  ⟨rfl, rfl⟩

/-- Witness for C9 on a non-empty table (one inactive student): exactly
one event is logged. -/
theorem C9_login_attempt_logged_witness :
    ∃ ev : LogEvent,
      (identify_and_login [⟨⟨"S2", false⟩, []⟩] [[(1:ℝ)]]).2.2 = [ev] := by
  obtain ⟨ev, h1, -⟩ :=
    C9_login_attempt_logged [⟨⟨"S2", false⟩, []⟩] [[(1:ℝ)]] (by simp)
  exact ⟨ev, h1⟩

end VoiceAuth
